import Mathlib

/-!
Verification of the stockify inventory bot (src/stock_bot.py) against its
natural-language specification.

Python strings are shallowly embedded as `List Char` (abbreviated `PyStr`),
with character-level operations (`str.isalnum`, `str.upper`, `str.lower`,
`str.strip`) modelled on the ASCII range, which covers every identifier,
sentinel and delimiter the program manipulates.  Python dictionaries decoded
from JSON are embedded as a `Json` inductive with association-list objects
(last binding wins, as in `json.loads`).  Python exceptions raised inside the
per-item reconciliation loop are modelled with `Except Unit`; the surrounding
`try`/`except` handlers of the source are translated explicitly, so every
top-level function of the embedding is total.
-/

set_option maxRecDepth 8192

abbrev PyStr := List Char

/-- ASCII upper-casing of one character, modelling Python `str.upper`. -/
def upChar (c : Char) : Char :=
  if h : 97 ≤ c.toNat ∧ c.toNat ≤ 122 then Char.ofNatAux (c.toNat - 32) (by left; omega) else c

/-- ASCII lower-casing of one character, modelling Python `str.lower`. -/
def downChar (c : Char) : Char :=
  if h : 65 ≤ c.toNat ∧ c.toNat ≤ 90 then Char.ofNatAux (c.toNat + 32) (by left; omega) else c

/-- ASCII alphanumeric test, modelling Python `str.isalnum`. -/
def pyIsAlnum (c : Char) : Bool :=
  (48 ≤ c.toNat && c.toNat ≤ 57) || (65 ≤ c.toNat && c.toNat ≤ 90) ||
    (97 ≤ c.toNat && c.toNat ≤ 122)

/-- Hexadecimal digit test: the digits accepted by Python `int(_, 16)`. -/
def pyIsHexDigit (c : Char) : Bool :=
  (48 ≤ c.toNat && c.toNat ≤ 57) || (65 ≤ c.toNat && c.toNat ≤ 70) ||
    (97 ≤ c.toNat && c.toNat ≤ 102)

def pyUpper (s : PyStr) : PyStr := s.map upChar

def pyLower (s : PyStr) : PyStr := s.map downChar

/-- Success test of Python `int(s, 16)` on an alphanumeric string: either all
characters are hex digits, or the string carries a `0x`/`0X` prefix followed by
at least one hex digit.  (The sign, whitespace and underscore forms accepted by
Python cannot reach this check: `format_mac_address` only applies it to a
string already filtered by `str.isalnum`.) -/
def pyIntOk16 (c : PyStr) : Bool :=
  let body : PyStr :=
    match c with
    | '0' :: x :: rest => if x = 'x' ∨ x = 'X' then rest else c
    | _ => c
  !body.isEmpty && body.all pyIsHexDigit

/-- `":".join(cleaned[i:i+2] for i in range(0, 12, 2))` of the source, for a
string of even length: the characters regrouped in twos with `:` in between. -/
def chunkJoin : PyStr → PyStr
  | a :: b :: c :: rest => a :: b :: ':' :: chunkJoin (c :: rest)
  | l => l

/-- `format_mac_address` (src/stock_bot.py lines 75-88): the Identifier
Normalizer.  Returns the `"N/A"` sentinel for falsy or `"n/a"` input, strips
non-alphanumeric characters, upper-cases, and accepts exactly-12-character
results that `int(_, 16)` parses, regrouping them as colon-separated pairs. -/
def format_mac_address (s : PyStr) : PyStr :=
  if s.isEmpty ∨ pyLower s = "n/a".data then "N/A".data
  else if ((s.filter pyIsAlnum).map upChar).length = 12 then
    if pyIntOk16 ((s.filter pyIsAlnum).map upChar) then
      chunkJoin ((s.filter pyIsAlnum).map upChar)
    else "N/A".data
  else "N/A".data

/-- The shape `^[0-9A-F]{2}(:[0-9A-F]{2}){5}$` claimed for every non-sentinel
Normalizer output: six colon-separated pairs of upper-case hex digits. -/
def macSixPairs (s : PyStr) : Bool :=
  match s with
  | [a, b, ':', c, d, ':', e, f, ':', g, h, ':', i, j, ':', k, l] =>
      [a, b, c, d, e, f, g, h, i, j, k, l].all fun ch =>
        (48 ≤ ch.toNat && ch.toNat ≤ 57) || (65 ≤ ch.toNat && ch.toNat ≤ 70)
  | _ => false

/-- Python values decoded by `json.loads`, as used by the program: `None`,
booleans, integers, strings, lists and dictionaries.  Dictionaries are kept as
association lists in insertion order; lookups take the last binding, matching
`json.loads` duplicate-key behaviour. -/
inductive Json where
  | null
  | bool (b : Bool)
  | num (n : Int)
  | str (s : PyStr)
  | arr (elems : List Json)
  | obj (fields : List (PyStr × Json))

def skipWs (s : PyStr) : PyStr :=
  s.dropWhile fun c => c == ' ' || c == '\n' || c == '\t' || c == '\r'

def escChar (e : Char) : Option Char :=
  if e = '"' then some '"'
  else if e = '\\' then some '\\'
  else if e = '/' then some '/'
  else if e = 'n' then some '\n'
  else if e = 't' then some '\t'
  else if e = 'r' then some '\r'
  else if e = 'b' then some (Char.ofNat 8)
  else if e = 'f' then some (Char.ofNat 12)
  else none

/-- Body of a JSON string literal after the opening quote: the decoded
characters and the remainder after the closing quote. -/
def pString : PyStr → Option (PyStr × PyStr)
  | [] => none
  | '\\' :: e :: rest =>
      match escChar e with
      | some c => (pString rest).map fun p => (c :: p.1, p.2)
      | none => none
  | '"' :: rest => some ([], rest)
  | c :: rest => (pString rest).map fun p => (c :: p.1, p.2)

def isDigitChar (c : Char) : Bool := 48 ≤ c.toNat && c.toNat ≤ 57

def digsVal (l : PyStr) : Nat := l.foldl (fun acc c => acc * 10 + (c.toNat - 48)) 0

/-- Leading unsigned integer literal.  Floating-point forms (a following `.`,
`e` or `E`) are outside the embedding and are treated as a decode failure; the
program's claims never involve non-integer numeric payloads. -/
def pNatNum (s : PyStr) : Option (Nat × PyStr) :=
  let digs := s.takeWhile isDigitChar
  let rest := s.dropWhile isDigitChar
  if digs.isEmpty then none
  else
    match rest with
    | '.' :: _ => none
    | 'e' :: _ => none
    | 'E' :: _ => none
    | _ => some (digsVal digs, rest)

def pNumJson (s : PyStr) : Option (Json × PyStr) :=
  match s with
  | '-' :: r => (pNatNum r).map fun p => (.num (-(p.1 : Int)), p.2)
  | _ => (pNatNum s).map fun p => (.num (p.1 : Int), p.2)

mutual

def pJson : Nat → PyStr → Option (Json × PyStr)
  | 0, _ => none
  | Nat.succ fuel, s =>
    match skipWs s with
    | 'n' :: 'u' :: 'l' :: 'l' :: r => some (.null, r)
    | 't' :: 'r' :: 'u' :: 'e' :: r => some (.bool true, r)
    | 'f' :: 'a' :: 'l' :: 's' :: 'e' :: r => some (.bool false, r)
    | '"' :: r => (pString r).map fun p => (.str p.1, p.2)
    | '[' :: r =>
      (match skipWs r with
       | ']' :: r' => some (.arr [], r')
       | _ => pArrElems fuel r [])
    | '\x7b' :: r =>
      (match skipWs r with
       | '\x7d' :: r' => some (.obj [], r')
       | _ => pObjFields fuel r [])
    | s' => pNumJson s'

def pArrElems : Nat → PyStr → List Json → Option (Json × PyStr)
  | 0, _, _ => none
  | Nat.succ fuel, s, acc =>
    match pJson fuel s with
    | none => none
    | some (v, r) =>
      match skipWs r with
      | ',' :: r' => pArrElems fuel r' (acc ++ [v])
      | ']' :: r' => some (.arr (acc ++ [v]), r')
      | _ => none

def pObjFields : Nat → PyStr → List (PyStr × Json) → Option (Json × PyStr)
  | 0, _, _ => none
  | Nat.succ fuel, s, acc =>
    match skipWs s with
    | '"' :: r =>
      (match pString r with
       | none => none
       | some (k, r1) =>
         match skipWs r1 with
         | ':' :: r2 =>
           (match pJson fuel r2 with
            | none => none
            | some (v, r3) =>
              match skipWs r3 with
              | ',' :: r4 => pObjFields fuel r4 (acc ++ [(k, v)])
              | '\x7d' :: r4 => some (.obj (acc ++ [(k, v)]), r4)
              | _ => none)
         | _ => none)
    | _ => none

end

/-- `json.loads` on the supported fragment: a complete JSON value with nothing
but whitespace after it. -/
def jsonParse (s : PyStr) : Option Json :=
  match pJson (s.length + 2) s with
  | some (v, rest) => if (skipWs rest).isEmpty then some v else none
  | none => none

/-- Dictionary lookup for `json.loads` association lists: the last binding of
the key wins, as in a Python dict built from a JSON object literal. -/
def jGet : List (PyStr × Json) → PyStr → Option Json
  | [], _ => none
  | (k, v) :: rest, key =>
    match jGet rest key with
    | some r => some r
    | none => if k == key then some v else none

/-- Python `dict.get(key, default)`. -/
def jGetD (fields : List (PyStr × Json)) (key : PyStr) (d : Json) : Json :=
  (jGet fields key).getD d

/-- Python truthiness of a decoded JSON value. -/
def jTruthy : Json → Bool
  | .null => false
  | .bool b => b
  | .num n => n != 0
  | .str s => !s.isEmpty
  | .arr l => !l.isEmpty
  | .obj f => !f.isEmpty

/-- Python `v == t` for a decoded value against a string literal `t`. -/
def jIsStr (v : Json) (t : PyStr) : Bool :=
  match v with
  | .str s => s == t
  | _ => false

/-- `x != "N/A" and x`, the truthiness test the source applies to `dp_n` and
`vpn` before adopting them. -/
def dpnOk (v : Json) : Bool := !jIsStr v "N/A".data && jTruthy v

/-- `x == "N/A" or not x or x.lower() == "unknown"` on a string. -/
def strUnsetB (s : PyStr) : Bool :=
  s == "N/A".data || s.isEmpty || pyLower s == "unknown".data

/-- The source's make/model "still unset" test
`x == "N/A" or not x or x.lower() == "unknown"` on an arbitrary decoded value:
a truthy non-string raises `AttributeError` at `.lower()`. -/
def pyUnset : Json → Except Unit Bool
  | .str s => .ok (strUnsetB s)
  | v => if jTruthy v then .error () else .ok true

/-- `x if x and x.lower() != "n/a" and x.lower() != "unknown" else "N/A"`
on a string: the output normalization applied to make and model. -/
def outNormStr (s : PyStr) : PyStr :=
  if !s.isEmpty && pyLower s != "n/a".data && pyLower s != "unknown".data then s
  else "N/A".data

/-- The output normalization on an arbitrary decoded value; a truthy
non-string raises `AttributeError` at `.lower()`. -/
def pyOutNorm : Json → Except Unit PyStr
  | .str s => .ok (outNormStr s)
  | v => if jTruthy v then .error () else .ok "N/A".data

/-- `format_mac_address` applied to an arbitrary decoded value: falsy
non-strings short-circuit to the sentinel at `if not mac_string`, truthy
non-strings raise at `.lower()`. -/
def pyFormatMacJ : Json → Except Unit PyStr
  | .str s => .ok (format_mac_address s)
  | v => if jTruthy v then .error () else .ok "N/A".data

/-- The final per-item record built at lines 321-327 of the source: make,
model and the formatted hardware address are always strings, while
serial_number and part_number are passed through as decoded. -/
structure ItemInfo where
  make : PyStr
  model : PyStr
  serial_number : Json
  part_number : Json
  mac_address : PyStr

/-- The Field Reconciler: the body of the per-item loop of
`analyze_image_with_openai` (src/stock_bot.py lines 286-328).  `lookup` is
the outcome of `get_vendor_from_mac` on the formatted address; a raised
`AttributeError` (non-dict item, truthy non-string field where a string
method or comparison is required) is the `Except.error` case. -/
def reconcileJson (lookup : PyStr → Option PyStr) (item : Json) :
    Except Unit ItemInfo :=
  match item with
  | .obj fields =>
    let itemMake := jGetD fields "make".data (.str "N/A".data)
    let itemModel := jGetD fields "model".data (.str "N/A".data)
    let serial := jGetD fields "serial_number".data (.str "N/A".data)
    let part := jGetD fields "part_number".data (.str "N/A".data)
    let dpn := jGetD fields "dp_n".data (.str "N/A".data)
    let vpn := jGetD fields "vpn".data (.str "N/A".data)
    let rawMac := jGetD fields "mac_address".data (.str "N/A".data)
    do
      let mac ← pyFormatMacJ rawMac
      let unset1 ← pyUnset itemMake
      let make1 : Json :=
        if unset1 && mac != "N/A".data then
          match lookup mac with
          | some v => if !v.isEmpty then .str v else itemMake
          | none => itemMake
        else itemMake
      let unset2 ← pyUnset make1
      let make2 : Json := if unset2 && dpnOk dpn then .str "Dell".data else make1
      let unsetM ← pyUnset itemModel
      let model1 : Json :=
        if unsetM then
          if dpnOk vpn then vpn
          else if jIsStr make2 "Dell".data && dpnOk dpn then dpn
          else itemModel
        else itemModel
      let makeOut ← pyOutNorm make2
      let modelOut ← pyOutNorm model1
      return ⟨makeOut, modelOut, serial, part, mac⟩
  | _ => .error ()

/-- The field bindings of a raw candidate item all of whose fields are JSON
strings. -/
def strObjFields (mk md sn pn dp vp mc : PyStr) : List (PyStr × Json) :=
  [("make".data, .str mk), ("model".data, .str md),
   ("serial_number".data, .str sn), ("part_number".data, .str pn),
   ("dp_n".data, .str dp), ("vpn".data, .str vp),
   ("mac_address".data, .str mc)]

/-- A raw candidate item all of whose present fields are JSON strings — the
shape the inference prompt requests (the spec's RawCandidateItem, "all fields
optional free text"). -/
def strObj (mk md sn pn dp vp mc : PyStr) : Json :=
  .obj (strObjFields mk md sn pn dp vp mc)

/-- One element of the list `analyze_image_with_openai` returns for an image:
either a reconciled item, or an error dictionary (`make` message plus, where
the source includes one, a `raw_response` diagnostic). -/
inductive Entry where
  | item (info : ItemInfo)
  | err (make : PyStr) (raw : Option PyStr)

/-- The per-item loop over the decoded candidate list: the first raised
exception aborts the whole loop (the source's surrounding `try`). -/
def mapExcept (f : Json → Except Unit ItemInfo) :
    List Json → Except Unit (List ItemInfo)
  | [] => .ok []
  | x :: xs => do
    let y ← f x
    let ys ← mapExcept f xs
    return y :: ys

/-- Python `str.find`: index of the first occurrence, `none` for `-1`. -/
def pyFind : PyStr → Char → Option Nat
  | [], _ => none
  | x :: xs, c => if x = c then some 0 else (pyFind xs c).map (· + 1)

/-- Python `str.rfind`: index of the last occurrence, `none` for `-1`. -/
def pyRFind (l : PyStr) (c : Char) : Option Nat :=
  (pyFind l.reverse c).map fun i => l.length - 1 - i

/-- Python `s[i:j]` for the non-negative bounds the source produces. -/
def pySlice (l : PyStr) (i j : Nat) : PyStr := (l.take j).drop i

def formatErrMake : PyStr := "N/A (OpenAI JSON Format Error)".data

def jsonErrMake : PyStr := "N/A (JSON Error for image)".data

def parsingErrMake : PyStr := "N/A (Parsing Error for image)".data

def noItemsMake : PyStr := "N/A (No Items Parsed)".data

/-- Stands for `str(e)[:500]` of the caught Python exception: the text of an
`AttributeError`/`TypeError` message, which the embedding does not
reconstruct (no claim mentions it). -/
def excText : PyStr := "unhandled parsing exception".data

/-- Lines 286-333 of the source: run the reconciliation loop over the decoded
candidate list, then the `if not processed_items_list and content and not
list_of_item_data` guard; a raised exception is caught by the surrounding
`except Exception` handler (line 338). -/
def finishItems (lookup : PyStr → Option PyStr) (content : PyStr)
    (items : List Json) : List Entry :=
  match mapExcept (reconcileJson lookup) items with
  | .ok procs =>
    if procs.isEmpty && !content.isEmpty && items.isEmpty then
      [.err noItemsMake (some (content.take 500))]
    else procs.map .item
  | .error _ => [.err parsingErrMake (some excText)]

/-- Lines 262-270 and 335-340: decode the bracket-delimited substring as a
JSON array (a lone dict is wrapped; any other decoded shape raises the
`TypeError` of line 270, caught by the generic handler), then run the
reconciliation loop. -/
def arrayBranch (lookup : PyStr → Option PyStr) (content sub : PyStr) :
    List Entry :=
  match jsonParse sub with
  | some (.arr items) => finishItems lookup content items
  | some (.obj fs) => finishItems lookup content [.obj fs]
  | some _ => [.err parsingErrMake (some excText)]
  | none => [.err jsonErrMake (some (content.take 500))]

/-- Lines 272-283: decode the brace-delimited substring as a single value and
run the loop on the one-element list (the source applies no shape check
here). -/
def objectBranch (lookup : PyStr → Option PyStr) (content sub : PyStr) :
    List Entry :=
  match jsonParse sub with
  | some d => finishItems lookup content [d]
  | none => [.err jsonErrMake (some (content.take 500))]

/-- The Extraction Parser plus reconciliation loop: lines 253-340 of
`analyze_image_with_openai`, applied to the raw inference text `content`.
Array brackets are searched first (`find('[')`, `rfind(']') + 1`); the
object-brace fallback runs when no `[` exists; `json.JSONDecodeError` and the
generic `except Exception` produce the error dictionaries of lines 335-340. -/
def processContent (lookup : PyStr → Option PyStr) (content : PyStr) :
    List Entry :=
  match pyFind content '[' with
  | some i =>
    arrayBranch lookup content
      (pySlice content i
        (match pyRFind content ']' with | some j => j + 1 | none => 0))
  | none =>
    match pyFind content '\x7b' with
    | some i =>
      objectBranch lookup content
        (pySlice content i
          (match pyRFind content '\x7d' with | some j => j + 1 | none => 0))
    | none => [.err formatErrMake (some (content.take 500))]

/-- Outcome of the OpenAI chat-completion call made by
`analyze_image_with_openai`: the raw response text, an `openai.APIError`, or
any other exception. -/
inductive InferOutcome where
  | success (content : PyStr)
  | apiError (status : Nat) (msg : PyStr)
  | otherError (msg : PyStr)

/-- `analyze_image_with_openai` (src/stock_bot.py lines 204-348), the Pipeline
Orchestrator for one image: `None` for empty bytes before any inference call;
otherwise the inference outcome is parsed and reconciled, with the two outer
`except` handlers of lines 342-348 producing single error dictionaries. -/
def analyze_image_with_openai (lookup : PyStr → Option PyStr)
    (infer : InferOutcome) (imageBytes : List Nat) : Option (List Entry) :=
  if imageBytes.isEmpty then none
  else some
    (match infer with
     | .success content => processContent lookup content
     | .apiError st msg =>
       [.err ("OpenAI API Error: Status ".data ++ (Nat.repr st).data ++
         " - ".data ++ msg) none]
     | .otherError msg =>
       [.err ("N/A (API Call Error for image: ".data ++ msg.take 100 ++
         ")".data) none])

/-- The whitespace stripped by Python `str.strip()` (ASCII range). -/
def isSpaceChar (c : Char) : Bool :=
  c == ' ' || c == '\t' || c == '\n' || c == '\r' ||
    c == Char.ofNat 11 || c == Char.ofNat 12

/-- Python `str.strip()`. -/
def pyStrip (s : PyStr) : PyStr :=
  ((s.dropWhile isSpaceChar).reverse.dropWhile isSpaceChar).reverse

/-- Python `s.split(sep)[0]` for non-empty `sep`: the segment before the
first occurrence of `sep`, or all of `s` when `sep` does not occur. -/
def cutBefore (sep : PyStr) : PyStr → PyStr
  | [] => []
  | c :: rest => if sep.isPrefixOf (c :: rest) then [] else c :: cutBefore sep rest

/-- Python `needle in hay` on strings. -/
def containsSub (needle : PyStr) : PyStr → Bool
  | [] => needle.isEmpty
  | c :: rest => needle.isPrefixOf (c :: rest) || containsSub needle rest

/-- Line 113 of the source:
`vendor_name.split(" CO.")[0].split(" LTD")[0].split(" INC")[0].split(" LLC")[0].split(" GMBH")[0].strip()`. -/
def stripLegal (s : PyStr) : PyStr :=
  pyStrip (cutBefore " GMBH".data (cutBefore " LLC".data (cutBefore " INC".data
    (cutBefore " LTD".data (cutBefore " CO.".data s)))))

/-- Lines 113-115: suffix stripping followed by the hard-coded rule
`if "YEALINK" in vendor_name_cleaned.upper(): vendor_name_cleaned = "Yealink"`. -/
def cleanVendorName (s : PyStr) : PyStr :=
  if containsSub "YEALINK".data (pyUpper (stripLegal s)) then "Yealink".data
  else stripLegal s

/-- Behaviour of the single `requests.get` call made by
`get_vendor_from_mac`: a timeout, a `RequestException`, any other exception,
or an HTTP response with a status code and body. -/
inductive HttpOutcome where
  | timeout
  | reqError
  | otherError
  | response (status : Nat) (body : PyStr)

/-- `get_vendor_from_mac` (src/stock_bot.py lines 91-155), the Vendor
Resolver: `token` is the `MACVENDORS_API_TOKEN` configuration (absent or
empty collapses to `None`), `oc` the outcome of the lookup request.  A
200-status body is decoded with `json.loads`; a dict carrying a string
`data.organization_name` yields the cleaned vendor name, a bare JSON string
is returned verbatim unless it mentions "not found"/"errors", and every
other shape, every decode failure, every non-200 status and every transport
error yields `None` (the `except` ladder of lines 128-155). -/
def get_vendor_from_mac (token : Option PyStr) (mac : PyStr)
    (oc : HttpOutcome) : Option PyStr :=
  if mac.isEmpty ∨ pyLower mac = "n/a".data then none
  else if token = none ∨ token = some [] then none
  else
    match oc with
    | .timeout => none
    | .reqError => none
    | .otherError => none
    | .response st body =>
      if st = 200 then
        match jsonParse body with
        | some (.obj o) =>
          (match jGet o "data".data with
           | some (.obj d) =>
             (match jGet d "organization_name".data with
              | some (.str name) => some (cleanVendorName name)
              | some _ => none
              | none => none)
           | _ => none)
        | some (.str s) =>
          if !containsSub "not found".data (pyLower s) &&
             !containsSub "errors".data (pyLower s) then some s
          else none
        | some _ => none
        | none => none
      else none

/-- The failure classes of the vendor lookup: missing/empty credential,
timeout, transport error, non-200 status, undecodable body, a decoded body
that is neither a dict carrying a string `data.organization_name` nor a bare
string, and a bare-string body mentioning "not found"/"errors". -/
def vendorLookupFails (token : Option PyStr) (oc : HttpOutcome) : Bool :=
  token == none || token == some [] ||
  match oc with
  | .timeout => true
  | .reqError => true
  | .otherError => true
  | .response st body =>
    st != 200 ||
    match jsonParse body with
    | none => true
    | some (.str s) =>
      containsSub "not found".data (pyLower s) ||
        containsSub "errors".data (pyLower s)
    | some (.obj o) =>
      !(match jGet o "data".data with
        | some (.obj d) =>
          (match jGet d "organization_name".data with
           | some (.str _) => true
           | _ => false)
        | _ => false)
    | some _ => true

def truncationMarker : PyStr := "\n... (message truncated)".data

/-- Lines 523-524 of `on_message`: the reply is cut to its first 1990
characters and the truncation marker appended whenever it is longer than
1990 characters. -/
def truncateReply (s : PyStr) : PyStr :=
  if 1990 < s.length then s.take 1990 ++ truncationMarker else s

/-- A well-normalized output field: the canonical sentinel, or a concrete
string that is non-empty and not a case variant of `n/a`/`unknown`. -/
def normOk (x : PyStr) : Prop :=
  x = "N/A".data ∨ (x ≠ [] ∧ pyLower x ≠ "n/a".data ∧ pyLower x ≠ "unknown".data)

example : format_mac_address "aabb.ccdd.eeff".data = "AA:BB:CC:DD:EE:FF".data := by decide

example : format_mac_address "".data = "N/A".data := by decide

example : format_mac_address "N/a".data = "N/A".data := by decide

example : format_mac_address "AABBCCDDEEF".data = "N/A".data := by decide

example : format_mac_address "GABBCCDDEEFF".data = "N/A".data := by decide

example : format_mac_address "0XAABBCCDDEE".data = "0X:AA:BB:CC:DD:EE".data := by decide

theorem toNat_upChar_of (c : Char) (h : 97 ≤ c.toNat ∧ c.toNat ≤ 122) :
    (upChar c).toNat = c.toNat - 32 := by
  unfold upChar; rw [dif_pos h]; rfl

theorem upChar_eq_of_not (c : Char) (h : ¬ (97 ≤ c.toNat ∧ c.toNat ≤ 122)) :
    upChar c = c := by
  unfold upChar; rw [dif_neg h]

theorem upChar_idem (c : Char) : upChar (upChar c) = upChar c := by
  by_cases h : 97 ≤ c.toNat ∧ c.toNat ≤ 122
  · apply upChar_eq_of_not
    rw [toNat_upChar_of c h]
    omega
  · rw [upChar_eq_of_not c h, upChar_eq_of_not c h]

theorem pyIsAlnum_upChar (c : Char) : pyIsAlnum (upChar c) = pyIsAlnum c := by
  by_cases h : 97 ≤ c.toNat ∧ c.toNat ≤ 122
  · unfold pyIsAlnum
    rw [toNat_upChar_of c h, Bool.eq_iff_iff]
    simp only [Bool.or_eq_true, Bool.and_eq_true, decide_eq_true_eq]
    omega
  · rw [upChar_eq_of_not c h]

theorem map_upChar_idem (l : PyStr) : (l.map upChar).map upChar = l.map upChar := by
  induction l with
  | nil => rfl
  | cons a t ih => simp only [List.map_cons, upChar_idem, ih]

theorem filter_chunkJoin : ∀ c : PyStr, (∀ x ∈ c, pyIsAlnum x = true) →
    (chunkJoin c).filter pyIsAlnum = c := by
  intro c
  induction c using chunkJoin.induct with
  | case1 a b d rest ih =>
      intro hall
      rw [chunkJoin]
      have ha := hall a (by simp)
      have hb := hall b (by simp)
      have hcolon : pyIsAlnum ':' = false := by decide
      simp only [List.filter, ha, hb, hcolon]
      rw [ih (fun x hx => hall x (by simp only [List.mem_cons] at hx ⊢; tauto))]
  | case2 l hl =>
      intro hall
      have hcj : chunkJoin l = l := by
        match l, hl with
        | [], _ => rfl
        | [a], _ => rfl
        | [a, b], _ => rfl
        | a :: b :: c :: rest, hl => exact absurd rfl (hl a b c rest)
      rw [hcj, List.filter_eq_self]
      intro x hx; exact hall x hx

theorem format_mac_chunkJoin (c : PyStr) (hall : ∀ x ∈ c, pyIsAlnum x = true)
    (hup : c.map upChar = c) (hlen : c.length = 12) (hok : pyIntOk16 c = true) :
    format_mac_address (chunkJoin c) = chunkJoin c := by
  have hfil : (chunkJoin c).filter pyIsAlnum = c := filter_chunkJoin c hall
  have hg1 : ¬ ((chunkJoin c).isEmpty = true ∨ pyLower (chunkJoin c) = "n/a".data) := by
    obtain ⟨a, b, d, rest, rfl⟩ : ∃ a b d rest, c = a :: b :: d :: rest := by
      match c, hlen with
      | a :: b :: d :: rest, _ => exact ⟨a, b, d, rest, rfl⟩
    rw [chunkJoin]
    rintro (hempty | hlow)
    · simp at hempty
    · simp only [pyLower, List.map_cons, List.cons.injEq] at hlow
      exact absurd hlow.2.2.1 (by decide)
  unfold format_mac_address
  rw [if_neg hg1, hfil, hup, if_pos hlen, if_pos hok]

/-- Claim C10: the Identifier Normalizer is idempotent — applying
`format_mac_address` to its own output returns that output unchanged, on the
sentinel branch as well as on the formatted branch. -/
theorem format_mac_address_idempotent (s : PyStr) :
    format_mac_address (format_mac_address s) = format_mac_address s := by
  by_cases h1 : s.isEmpty = true ∨ pyLower s = "n/a".data
  · have e : format_mac_address s = "N/A".data := by
      unfold format_mac_address; rw [if_pos h1]
    rw [e]; decide
  · by_cases h2 : ((s.filter pyIsAlnum).map upChar).length = 12
    · by_cases h3 : pyIntOk16 ((s.filter pyIsAlnum).map upChar) = true
      · have e : format_mac_address s = chunkJoin ((s.filter pyIsAlnum).map upChar) := by
          unfold format_mac_address; rw [if_neg h1, if_pos h2, if_pos h3]
        rw [e]
        apply format_mac_chunkJoin
        · intro x hx
          simp only [List.mem_map] at hx
          obtain ⟨y, hy, rfl⟩ := hx
          rw [pyIsAlnum_upChar]
          exact (List.mem_filter.mp hy).2
        · exact map_upChar_idem _
        · exact h2
        · exact h3
      · have e : format_mac_address s = "N/A".data := by
          unfold format_mac_address; rw [if_neg h1, if_pos h2, if_neg h3]
        rw [e]; decide
    · have e : format_mac_address s = "N/A".data := by
        unfold format_mac_address; rw [if_neg h1, if_neg h2]
      rw [e]; decide

/-- Claim C5 (code bug): the Normalizer's output is claimed to be either the
sentinel or a match of `^[0-9A-F]{2}(:[0-9A-F]{2}){5}$`, with every input whose
alphanumeric characters are not exactly 12 hex digits mapped to the sentinel.
The code violates this: Python `int(_, 16)` accepts a `0X` prefix, so the
12-alphanumeric input `"0XAABBCCDDEE"` (whose character `X` is not a hex digit)
is formatted as `"0X:AA:BB:CC:DD:EE"` — neither the sentinel nor a match of
the claimed shape. -/
theorem format_mac_address_hex_prefix_bug :
    format_mac_address "0XAABBCCDDEE".data = "0X:AA:BB:CC:DD:EE".data ∧
    macSixPairs "0X:AA:BB:CC:DD:EE".data = false ∧
    "0X:AA:BB:CC:DD:EE".data ≠ "N/A".data := by decide

example : jsonParse "\"Cisco\"".data = some (.str "Cisco".data) := rfl

example : jsonParse "[]".data = some (.arr []) := rfl

example : jsonParse " \x7b\"a\": 1, \"a\": null\x7d ".data =
    some (.obj [("a".data, .num 1), ("a".data, .null)]) := rfl

example : jsonParse "[1, -2]".data = some (.arr [.num 1, .num (-2)]) := rfl

example : jsonParse "nope".data = none := rfl

example : jsonParse "".data = none := rfl

example :
    reconcileJson (fun _ => none)
      (strObj "N/A".data "N/A".data "SN1".data [] "016PD3".data
        "KM5221WBKB-INT".data "AABBCCDDEEFF".data) =
    .ok ⟨"Dell".data, "KM5221WBKB-INT".data, .str "SN1".data, .str [],
      "AA:BB:CC:DD:EE:FF".data⟩ := rfl

example :
    processContent (fun _ => none) "no json here".data =
      [.err formatErrMake (some "no json here".data)] := rfl

example :
    processContent (fun _ => none)
      "[\x7b\"make\":\"N/A\",\"model\":\"N/A\",\"serial_number\":\"SN1\",\"part_number\":\"\",\"dp_n\":\"016PD3\",\"vpn\":\"KM5221WBKB-INT\",\"mac_address\":\"AABBCCDDEEFF\"\x7d]".data =
      [.item ⟨"Dell".data, "KM5221WBKB-INT".data, .str "SN1".data, .str [],
        "AA:BB:CC:DD:EE:FF".data⟩] := rfl

example :
    processContent (fun _ => none) "text \x7b\"make\": \"HP\"\x7d more".data =
      [.item ⟨"HP".data, "N/A".data, .str "N/A".data, .str "N/A".data,
        "N/A".data⟩] := rfl

example :
    processContent (fun _ => none) "[]".data =
      [.err noItemsMake (some "[]".data)] := rfl

example :
    processContent (fun _ => none) "[5]".data =
      [.err parsingErrMake (some excText)] := rfl

example : cleanVendorName "Acme Networks INC".data = "Acme Networks".data := by decide

example : cleanVendorName "Acme Networks Inc".data = "Acme Networks Inc".data := by decide

example : cleanVendorName "YEALINK(XIAMEN) NETWORK TECHNOLOGY CO.,LTD.".data =
    "Yealink".data := by decide

theorem except_bind_ok {α β : Type} (x : α) (f : α → Except Unit β) :
    ((Except.ok x : Except Unit α) >>= f) = f x := rfl

theorem ite_json_str (c : Bool) (a b : PyStr) :
    (if c then Json.str a else Json.str b) = Json.str (if c then a else b) := by
  cases c <;> rfl

theorem normOk_outNormStr (s : PyStr) : normOk (outNormStr s) := by
  unfold outNormStr normOk
  split
  · rename_i h
    right
    simp only [Bool.and_eq_true, Bool.not_eq_true', bne_iff_ne] at h
    obtain ⟨⟨h1, h2⟩, h3⟩ := h
    refine ⟨fun hs => ?_, h2, h3⟩
    rw [hs] at h1
    exact absurd h1 (by decide)
  · left; rfl

theorem except_pure {α : Type} (x : α) :
    (pure x : Except Unit α) = .ok x := rfl

/-- Claim C2 (amended): for a candidate item whose fields are strings, the
Reconciler's output always carries all five fields; `make` and `model` are
normalized (never empty, never a case variant of `n/a`/`unknown` other than
the sentinel itself); `mac_address` is exactly the Normalizer's output; but
`serial_number` and `part_number` are passed through verbatim, however
degenerate. -/
theorem reconcileJson_field_shape (lookup : PyStr → Option PyStr)
    (mk md sn pn dp vp mc : PyStr) :
    ∃ it, reconcileJson lookup (strObj mk md sn pn dp vp mc) = .ok it ∧
      normOk it.make ∧ normOk it.model ∧
      it.serial_number = .str sn ∧ it.part_number = .str pn ∧
      it.mac_address = format_mac_address mc := by
  have gmk : jGetD (strObjFields mk md sn pn dp vp mc) "make".data
      (Json.str "N/A".data) = Json.str mk := rfl
  have gmd : jGetD (strObjFields mk md sn pn dp vp mc) "model".data
      (Json.str "N/A".data) = Json.str md := rfl
  have gsn : jGetD (strObjFields mk md sn pn dp vp mc) "serial_number".data
      (Json.str "N/A".data) = Json.str sn := rfl
  have gpn : jGetD (strObjFields mk md sn pn dp vp mc) "part_number".data
      (Json.str "N/A".data) = Json.str pn := rfl
  have gdp : jGetD (strObjFields mk md sn pn dp vp mc) "dp_n".data
      (Json.str "N/A".data) = Json.str dp := rfl
  have gvp : jGetD (strObjFields mk md sn pn dp vp mc) "vpn".data
      (Json.str "N/A".data) = Json.str vp := rfl
  have gmc : jGetD (strObjFields mk md sn pn dp vp mc) "mac_address".data
      (Json.str "N/A".data) = Json.str mc := rfl
  rcases hl : lookup (format_mac_address mc) with _ | v <;>
    simp only [reconcileJson, strObj, gmk, gmd, gsn, gpn, gdp, gvp, gmc,
      pyFormatMacJ, pyUnset, pyOutNorm, except_bind_ok, except_pure, hl,
      ite_json_str, dpnOk, jIsStr, jTruthy] <;>
    exact ⟨_, rfl, normOk_outNormStr _, normOk_outNormStr _, rfl, rfl, rfl⟩

/-- Claim C3 (amended): when the explicit make is unset and the normalized
hardware address is concrete, the Reconciler consults the vendor lookup
first; a returned name that is non-empty and not itself a case variant of
`n/a`/`unknown` becomes the final make no matter what `dp_n` holds, and a
lookup returning absence followed by a concrete `dp_n` yields make `"Dell"`. -/
theorem reconcile_make_precedence (lookup : PyStr → Option PyStr)
    (mk md sn pn dp vp mc expected : PyStr)
    (hU : strUnsetB mk = true)
    (hM : format_mac_address mc ≠ "N/A".data)
    (hcase :
      (∃ v, lookup (format_mac_address mc) = some v ∧ v ≠ [] ∧
        pyLower v ≠ "n/a".data ∧ pyLower v ≠ "unknown".data ∧ expected = v) ∨
      (lookup (format_mac_address mc) = none ∧ dp ≠ "N/A".data ∧ dp ≠ [] ∧
        expected = "Dell".data)) :
    ∃ it, reconcileJson lookup (strObj mk md sn pn dp vp mc) = .ok it ∧
      it.make = expected := by
  have gmk : jGetD (strObjFields mk md sn pn dp vp mc) "make".data
      (Json.str "N/A".data) = Json.str mk := rfl
  have gmd : jGetD (strObjFields mk md sn pn dp vp mc) "model".data
      (Json.str "N/A".data) = Json.str md := rfl
  have gsn : jGetD (strObjFields mk md sn pn dp vp mc) "serial_number".data
      (Json.str "N/A".data) = Json.str sn := rfl
  have gpn : jGetD (strObjFields mk md sn pn dp vp mc) "part_number".data
      (Json.str "N/A".data) = Json.str pn := rfl
  have gdp : jGetD (strObjFields mk md sn pn dp vp mc) "dp_n".data
      (Json.str "N/A".data) = Json.str dp := rfl
  have gvp : jGetD (strObjFields mk md sn pn dp vp mc) "vpn".data
      (Json.str "N/A".data) = Json.str vp := rfl
  have gmc : jGetD (strObjFields mk md sn pn dp vp mc) "mac_address".data
      (Json.str "N/A".data) = Json.str mc := rfl
  have hC1 : (strUnsetB mk && (format_mac_address mc != "N/A".data)) = true := by
    rw [hU]
    simpa [bne_iff_ne] using hM
  rcases hcase with ⟨v, hl, hv1, hv2, hv3, hexp⟩ | ⟨hl, hdp1, hdp2, hexp⟩
  · rw [hexp]
    clear hexp
    have hvNA : v ≠ "N/A".data := fun h => hv2 (by rw [h]; rfl)
    have e1 : (v == "N/A".data) = false := by
      simpa [beq_eq_false_iff_ne] using hvNA
    have e2 : v.isEmpty = false := by
      cases v with
      | nil => exact absurd rfl hv1
      | cons a t => rfl
    have e3 : (pyLower v == "unknown".data) = false := by
      simpa [beq_eq_false_iff_ne] using hv3
    have hunsetv : strUnsetB v = false := by
      simp [strUnsetB, e1, e2, e3]
    have hout : outNormStr v = v := by
      unfold outNormStr
      rw [if_pos]
      simp only [e2, Bool.not_false, bne_iff_ne, Bool.and_eq_true, true_and,
        decide_eq_true_eq]
      exact ⟨hv2, hv3⟩
    simp only [reconcileJson, strObj, gmk, gmd, gsn, gpn, gdp, gvp, gmc,
      pyFormatMacJ, pyUnset, pyOutNorm, except_bind_ok, except_pure, hl, hC1,
      e2, Bool.not_false, if_true, hunsetv, Bool.false_and, if_false,
      Bool.false_eq_true, ite_json_str, hout]
    exact ⟨_, rfl, rfl⟩
  · rw [hexp]
    clear hexp
    have hdOk : dpnOk (Json.str dp) = true := by
      have e1 : (dp == "N/A".data) = false := by
        simpa [beq_eq_false_iff_ne] using hdp1
      have e2 : dp.isEmpty = false := by
        cases dp with
        | nil => exact absurd rfl hdp2
        | cons a t => rfl
      simp [dpnOk, jIsStr, jTruthy, e1, e2]
    simp only [reconcileJson, strObj, gmk, gmd, gsn, gpn, gdp, gvp, gmc,
      pyFormatMacJ, pyUnset, pyOutNorm, except_bind_ok, except_pure, hl, hC1,
      if_true, ite_self, hU, hdOk, Bool.true_and, Bool.and_true,
      ite_json_str]
    refine ⟨_, rfl, ?_⟩
    show outNormStr "Dell".data = "Dell".data
    decide

theorem except_bind_error {α β : Type} (e : Unit) (f : α → Except Unit β) :
    ((Except.error e : Except Unit α) >>= f) = .error e := rfl

theorem pyFind_eq_none_of_not_mem (l : PyStr) (c : Char) (h : c ∉ l) :
    pyFind l c = none := by
  induction l with
  | nil => rfl
  | cons x xs ih =>
    simp only [List.mem_cons, not_or] at h
    unfold pyFind
    rw [if_neg (fun hx => h.1 hx.symm), ih h.2]
    rfl

theorem pyFind_some_ne_nil (l : PyStr) (c : Char) (i : Nat)
    (h : pyFind l c = some i) : l ≠ [] := by
  intro he
  subst he
  exact absurd h (by simp [pyFind])

theorem mapExcept_ok_nil_iff {f : Json → Except Unit ItemInfo} :
    ∀ (l : List Json) (r : List ItemInfo),
      mapExcept f l = .ok r → (r = [] ↔ l = []) := by
  intro l
  induction l with
  | nil =>
    intro r h
    simp only [mapExcept] at h
    cases h
    simp
  | cons x xs ih =>
    intro r h
    simp only [mapExcept] at h
    cases hf : f x with
    | error e =>
      rw [hf, except_bind_error] at h
      cases h
    | ok y =>
      rw [hf, except_bind_ok] at h
      cases hm : mapExcept f xs with
      | error e =>
        rw [hm, except_bind_error] at h
        cases h
      | ok ys =>
        rw [hm, except_bind_ok, except_pure] at h
        cases h
        simp

theorem finishItems_shape (lookup : PyStr → Option PyStr) (content : PyStr)
    (items : List Json) (hc : content ≠ []) :
    finishItems lookup content items ≠ [] ∧
      ((∃ m r, finishItems lookup content items = [.err m r]) ∨
        ∀ e ∈ finishItems lookup content items, ∃ i, e = .item i) := by
  unfold finishItems
  cases hm : mapExcept (reconcileJson lookup) items with
  | error e => exact ⟨by simp, .inl ⟨_, _, rfl⟩⟩
  | ok procs =>
    dsimp only
    by_cases hp : (procs.isEmpty && !content.isEmpty && items.isEmpty) = true
    · rw [if_pos hp]
      exact ⟨by simp, .inl ⟨_, _, rfl⟩⟩
    · rw [if_neg hp]
      constructor
      · intro hmap
        apply hp
        have hprocs : procs = [] := by simpa using hmap
        have hitems : items = [] := (mapExcept_ok_nil_iff items procs hm).mp hprocs
        have hce : content.isEmpty = false := by
          cases content with
          | nil => exact absurd rfl hc
          | cons a t => rfl
        simp [hprocs, hitems, hce]
      · right
        intro e he
        simp only [List.mem_map] at he
        obtain ⟨i, _, rfl⟩ := he
        exact ⟨i, rfl⟩

theorem arrayBranch_shape (lookup : PyStr → Option PyStr) (content sub : PyStr)
    (hc : content ≠ []) :
    arrayBranch lookup content sub ≠ [] ∧
      ((∃ m r, arrayBranch lookup content sub = [.err m r]) ∨
        ∀ e ∈ arrayBranch lookup content sub, ∃ i, e = .item i) := by
  unfold arrayBranch
  cases jsonParse sub with
  | none => exact ⟨by simp, .inl ⟨_, _, rfl⟩⟩
  | some v =>
    cases v with
    | arr items => exact finishItems_shape lookup content items hc
    | obj fs => exact finishItems_shape lookup content [.obj fs] hc
    | null => exact ⟨by simp, .inl ⟨_, _, rfl⟩⟩
    | bool b => exact ⟨by simp, .inl ⟨_, _, rfl⟩⟩
    | num n => exact ⟨by simp, .inl ⟨_, _, rfl⟩⟩
    | str s => exact ⟨by simp, .inl ⟨_, _, rfl⟩⟩

theorem objectBranch_shape (lookup : PyStr → Option PyStr) (content sub : PyStr)
    (hc : content ≠ []) :
    objectBranch lookup content sub ≠ [] ∧
      ((∃ m r, objectBranch lookup content sub = [.err m r]) ∨
        ∀ e ∈ objectBranch lookup content sub, ∃ i, e = .item i) := by
  unfold objectBranch
  cases jsonParse sub with
  | none => exact ⟨by simp, .inl ⟨_, _, rfl⟩⟩
  | some d => exact finishItems_shape lookup content [d] hc

/-- Claim C4: for every raw inference text (and every vendor-lookup
behaviour) the Extraction Parser is total — modelled by `processContent`
being a function — and returns either a non-empty list of reconciled items
or exactly one error record standing in for the whole image; text with no
array bracket and no object brace yields exactly one error record whose
snippet is the first 500 characters of the raw text. -/
theorem processContent_never_empty (lookup : PyStr → Option PyStr)
    (content : PyStr) :
    (processContent lookup content ≠ [] ∧
      ((∃ m r, processContent lookup content = [.err m r]) ∨
        ∀ e ∈ processContent lookup content, ∃ i, e = .item i)) ∧
    (('[' ∉ content ∧ ']' ∉ content ∧ '\x7b' ∉ content ∧ '\x7d' ∉ content) →
      processContent lookup content =
        [.err formatErrMake (some (content.take 500))]) := by
  constructor
  · unfold processContent
    cases hf : pyFind content '[' with
    | some i =>
      exact arrayBranch_shape lookup content _ (pyFind_some_ne_nil content '[' i hf)
    | none =>
      cases hf2 : pyFind content '\x7b' with
      | some i =>
        exact objectBranch_shape lookup content _ (pyFind_some_ne_nil content '\x7b' i hf2)
      | none => exact ⟨by simp, .inl ⟨_, _, rfl⟩⟩
  · rintro ⟨h1, _, h3, _⟩
    unfold processContent
    rw [pyFind_eq_none_of_not_mem content '[' h1,
      pyFind_eq_none_of_not_mem content '\x7b' h3]

/-- Witness for `processContent_never_empty`: a concrete bracket-free,
brace-free text produces exactly the one format-error record. -/
theorem processContent_never_empty_witness :
    processContent (fun _ => none) "hello".data =
      [.err formatErrMake (some ("hello".data.take 500))] :=
  (processContent_never_empty (fun _ => none) "hello".data).2
    ⟨by decide, by decide, by decide, by decide⟩

/-- Claim C1 (counterexample): in the end-to-end scenario of the claim the
pipeline yields one item whose make, model, serial number and hardware
address are as claimed, but whose part_number is the raw empty string — not
the `"N/A"` sentinel the claim requires ("part_number = the unknown
sentinel"): lines 324-326 of the source copy serial_number and part_number
through verbatim. -/
theorem analyze_c1_scenario_part_number_empty :
    analyze_image_with_openai (fun _ => none)
      (.success "[\x7b\"make\":\"N/A\",\"model\":\"N/A\",\"serial_number\":\"SN1\",\"part_number\":\"\",\"dp_n\":\"016PD3\",\"vpn\":\"KM5221WBKB-INT\",\"mac_address\":\"AABBCCDDEEFF\"\x7d]".data)
      [0] =
    some [.item ⟨"Dell".data, "KM5221WBKB-INT".data, .str "SN1".data,
      .str [], "AA:BB:CC:DD:EE:FF".data⟩] ∧
    ([] : PyStr) ≠ "N/A".data :=
  ⟨rfl, by decide⟩

/-- Claim C1 (amended): the end-to-end scenario with the vendor lookup
returning absence produces exactly one reconciled item with make `"Dell"`
(from dp_n), model `"KM5221WBKB-INT"` (from vpn, the vpn rule running
first), serial_number `"SN1"`, mac_address `"AA:BB:CC:DD:EE:FF"`, and
part_number `""` — the raw value passed through verbatim, since only make
and model are normalized to the sentinel. -/
theorem analyze_c1_scenario :
    analyze_image_with_openai (fun _ => none)
      (.success "[\x7b\"make\":\"N/A\",\"model\":\"N/A\",\"serial_number\":\"SN1\",\"part_number\":\"\",\"dp_n\":\"016PD3\",\"vpn\":\"KM5221WBKB-INT\",\"mac_address\":\"AABBCCDDEEFF\"\x7d]".data)
      [0] =
    some [.item ⟨"Dell".data, "KM5221WBKB-INT".data, .str "SN1".data,
      .str [], "AA:BB:CC:DD:EE:FF".data⟩] := rfl

/-- Claim C2 (counterexample): a candidate item whose part_number is the
empty string is reconciled to a record whose part_number is still the empty
string — the claimed normalization of every field to the sentinel does not
happen for serial_number/part_number (lines 324-326 pass them through). -/
theorem reconcileJson_keeps_empty_part_number :
    reconcileJson (fun _ => none) (Json.obj [("part_number".data, Json.str [])]) =
      .ok ⟨"N/A".data, "N/A".data, Json.str "N/A".data, Json.str [],
        "N/A".data⟩ ∧
    ([] : PyStr) ≠ "N/A".data :=
  ⟨rfl, by decide⟩

/-- Claim C3 (counterexample): with make unset, a concrete hardware address,
dp_n `"016PD3"` and the vendor lookup returning the name `"unknown"` (not
absence), the final make is `"Dell"`: the dp_n heuristic fires even though
the lookup returned a name, because the adopted name itself tests as unset.
A successful vendor lookup therefore does not always outrank dp_n. -/
theorem reconcileJson_unknown_vendor_overridden :
    reconcileJson (fun _ => some "unknown".data)
      (strObj "N/A".data "N/A".data "SN1".data "N/A".data "016PD3".data
        "N/A".data "AABBCCDDEEFF".data) =
    .ok ⟨"Dell".data, "016PD3".data, .str "SN1".data, .str "N/A".data,
      "AA:BB:CC:DD:EE:FF".data⟩ ∧
    "Dell".data ≠ "unknown".data :=
  ⟨rfl, by decide⟩

/-- Witness for `reconcile_make_precedence`: a lookup returning `"Cisco"`
sets make to `"Cisco"` even with dp_n present. -/
theorem reconcile_make_precedence_witness :
    ∃ it, reconcileJson (fun _ => some "Cisco".data)
      (strObj "N/A".data "N/A".data "S1".data "P1".data "016PD3".data
        "V1".data "AABBCCDDEEFF".data) = .ok it ∧ it.make = "Cisco".data :=
  reconcile_make_precedence (fun _ => some "Cisco".data) "N/A".data "N/A".data
    "S1".data "P1".data "016PD3".data "V1".data "AABBCCDDEEFF".data
    "Cisco".data (by decide) (by decide)
    (.inl ⟨"Cisco".data, rfl, by decide, by decide, by decide, rfl⟩)

/-- Claim C6 (counterexample): the legal-suffix stripping is case-sensitive
(`.split(" INC")` and friends match upper-case only), so the lookup name
`"Acme Networks Inc"` is returned unchanged, not stripped to
`"Acme Networks"` as the claim requires. -/
theorem cleanVendorName_case_sensitive :
    cleanVendorName "Acme Networks Inc".data = "Acme Networks Inc".data ∧
    "Acme Networks Inc".data ≠ "Acme Networks".data :=
  ⟨by decide, by decide⟩

/-- Claim C6 (amended): the Resolver cuts the name at the first occurrence
of the upper-case forms `" CO."`, `" LTD"`, `" INC"`, `" LLC"`, `" GMBH"`
only (so `"Acme Networks INC"` becomes `"Acme Networks"` while
`"Acme Networks Inc"` is unchanged), and any name whose suffix-stripped form
contains `"YEALINK"` case-insensitively is canonicalized to `"Yealink"`. -/
theorem cleanVendorName_amended :
    cleanVendorName "Acme Networks INC".data = "Acme Networks".data ∧
    cleanVendorName "Acme Networks Inc".data = "Acme Networks Inc".data ∧
    ∀ s, containsSub "YEALINK".data (pyUpper (stripLegal s)) = true →
      cleanVendorName s = "Yealink".data :=
  ⟨by decide, by decide, fun s h => by unfold cleanVendorName; rw [if_pos h]⟩

/-- Witness for `cleanVendorName_amended`: a mixed-case Yealink name is
canonicalized. -/
theorem cleanVendorName_amended_witness :
    cleanVendorName "YeaLink Tech CO. X".data = "Yealink".data :=
  cleanVendorName_amended.2.2 "YeaLink Tech CO. X".data (by decide)

/-- Claim C7 (counterexample): a 200 response whose body decodes to the bare
JSON string `"Cisco"` has no `data.organization_name` field, yet the
Resolver returns `"Cisco"` (uncleaned) instead of the claimed absence
(lines 118-121 of the source). -/
theorem get_vendor_bare_string_body :
    get_vendor_from_mac (some "tok".data) "AA:BB:CC:DD:EE:FF".data
      (.response 200 "\"Cisco\"".data) = some "Cisco".data ∧
    some "Cisco".data ≠ (none : Option PyStr) :=
  ⟨rfl, by decide⟩

/-- Claim C7 (amended): the Vendor Resolver is total (never raises), and
every enumerated failure — missing or empty credential, timeout, transport
error, non-200 status (401/404 included), undecodable body, a decoded body
that is neither a dict carrying a string `data.organization_name` nor a bare
string, and a bare-string body mentioning "not found"/"errors" — yields
absence.  (The one exception forced by the counterexample: a bare-string
200 body not mentioning those markers is returned verbatim.) -/
theorem get_vendor_fails_closed (token : Option PyStr) (mac : PyStr)
    (oc : HttpOutcome) (h : vendorLookupFails token oc = true) :
    get_vendor_from_mac token mac oc = none := by
  unfold get_vendor_from_mac
  by_cases h1 : mac.isEmpty = true ∨ pyLower mac = "n/a".data
  · rw [if_pos h1]
  · rw [if_neg h1]
    by_cases h2 : token = none ∨ token = some []
    · rw [if_pos h2]
    · rw [if_neg h2]
      push_neg at h2
      unfold vendorLookupFails at h
      rw [beq_eq_false_iff_ne.mpr h2.1, beq_eq_false_iff_ne.mpr h2.2] at h
      simp only [Bool.false_or] at h
      cases oc with
      | timeout => rfl
      | reqError => rfl
      | otherError => rfl
      | response st body =>
        dsimp only at h ⊢
        by_cases hst : st = 200
        · subst hst
          rw [if_pos rfl]
          simp only [bne_self_eq_false, Bool.false_or] at h
          cases hp : jsonParse body with
          | none => rfl
          | some v =>
            rw [hp] at h
            cases v with
            | null => rfl
            | bool b => rfl
            | num n => rfl
            | arr l => rfl
            | str s =>
              simp only [Bool.or_eq_true] at h
              rcases h with h | h <;> simp [h]
            | obj o =>
              simp only [Bool.not_eq_true'] at h
              dsimp only
              cases hd : jGet o "data".data with
              | none => rfl
              | some dv =>
                rw [hd] at h
                cases dv with
                | null => rfl
                | bool b => rfl
                | num n => rfl
                | str s2 => rfl
                | arr l => rfl
                | obj d =>
                  dsimp only
                  dsimp only at h
                  cases ho : jGet d "organization_name".data with
                  | none => rfl
                  | some ov =>
                    rw [ho] at h
                    cases ov with
                    | null => rfl
                    | bool b => rfl
                    | num n => rfl
                    | arr l => rfl
                    | obj o2 => rfl
                    | str name => exact Bool.noConfusion h
        · rw [if_neg hst]

/-- Witness for `get_vendor_fails_closed`: a timeout with a configured
credential yields absence. -/
theorem get_vendor_fails_closed_witness :
    get_vendor_from_mac (some "tok".data) "AA:BB:CC:DD:EE:FF".data
      .timeout = none :=
  get_vendor_fails_closed (some "tok".data) "AA:BB:CC:DD:EE:FF".data
    .timeout (by decide)

/-- Claim C8 (counterexample): given empty image bytes the Pipeline
Orchestrator returns the Python `None` (absence), not an error record: line
207-208 of the source is `if not image_bytes: return None`, and it is the
Ingestion Coordinator that later synthesizes the error entry. -/
theorem analyze_empty_bytes_returns_none :
    analyze_image_with_openai (fun _ => none) (.success "[]".data) [] =
      none := rfl

/-- Claim C8 (amended): on empty image bytes `analyze_image_with_openai`
returns `None` immediately, for every inference outcome and lookup — the
result does not depend on the inference call, which is therefore never
consulted. -/
theorem analyze_empty_bytes_no_inference (lookup : PyStr → Option PyStr)
    (infer : InferOutcome) :
    analyze_image_with_openai lookup infer [] = none := rfl

/-- Claim C9 (code bug): a composed reply of 1991 characters is truncated to
1990 characters and the 24-character marker appended, producing a
2014-character message — above the 2000-character ceiling of the host
surface, where the claim (and the evident intent of truncating) requires the
result to fit. -/
theorem truncateReply_exceeds_ceiling :
    (truncateReply (List.replicate 1991 'a')).length = 2014 ∧
    2000 < (truncateReply (List.replicate 1991 'a')).length := by
  have hcond : 1990 < (List.replicate 1991 'a' : PyStr).length := by simp
  have h : truncateReply (List.replicate 1991 'a') =
      (List.replicate 1991 'a' : PyStr).take 1990 ++ truncationMarker := by
    unfold truncateReply
    rw [if_pos hcond]
  have hm : truncationMarker.length = 24 := by decide
  rw [h]
  simp only [List.length_append, List.length_take, List.length_replicate, hm]
  refine ⟨?_, ?_⟩ <;> omega
